import Mathlib

/-!
Verification development for the parallel scheduling core of `aideml`
(`aide/parallel_agent.py`, with `aide/__init__.py` as its caller).

The embedding below translates the scheduler and worker logic of
`ParallelAgent` / `ParallelWorker` into executable Lean definitions.
External collaborators (the proposal engine, the sandboxed interpreter,
the metric collaborator, persistence) are passed in as explicit function
parameters, mirroring how the Python code calls out to them.  Parts of
the repository that are referenced but whose code is not among the
embedded sources (`aide/journal.py`, `aide/interpreter.py`,
`aide/agent.py`, `aide/utils/*`) are modelled from the specification and
marked as such in their doc comments.
-/

/-- Exceptions are modelled as opaque messages. -/
abbrev Err := String

/-- Modelled from the spec: the raw sandbox execution artifact
(`ExecutionResult` lives in `aide/interpreter.py`, which is not among the
embedded sources).  The spec describes it as opaque data carrying a
success/failure signal, captured output and timing. -/
structure ExecResult where
  success : Bool
  output : String
  time : Nat
deriving DecidableEq, Repr

/-- Modelled from the spec: a `Node` (`aide/journal.py` is not among the
embedded sources).  Unique id; opaque candidate code; a parent
back-reference (here by id) or none for a draft; `is_buggy` and `metric`
set during evaluation; the absorbed raw execution artifact. -/
structure Node where
  id : Nat
  code : String
  parent : Option Nat
  is_buggy : Bool
  metric : Option Int
  exec_result : Option ExecResult
deriving DecidableEq, Repr

/-- Modelled from the spec: the `Journal` (`aide/journal.py` is not among
the embedded sources): the append-only collection of all nodes in arrival
order, plus the secondary list of draft nodes.  `Journal.append` appends
to the main collection; `len(journal)` is the length of `nodes`. -/
structure Journal where
  nodes : List Node
  draft_nodes : List Node
deriving DecidableEq, Repr

/-- Whether an `Except` result carries an error (used to state that an
evaluation raised). -/
def isErr {α : Type} : Except Err α → Bool
  | .error _ => true
  | .ok _ => false

/-! ## Partition step (`ParallelAgent.step`, lines 135-146)

```
nodes_per_executor = max(1, len(all_nodes) // len(self.workers))
for i, worker in enumerate(self.workers):
    start_idx = i * nodes_per_executor
    end_idx = start_idx + nodes_per_executor if i < len(self.workers) - 1 else len(all_nodes)
    worker_nodes = all_nodes[start_idx:end_idx]
```

A Python slice `l[s:e]` with `0 ≤ s, e` is `(l.drop s).take (e - s)`
(both clamp at the ends, and `e < s` yields the empty list, as does the
truncated subtraction). -/

/-- The slice of `all_nodes` assigned to worker `i` out of `P`. -/
def partition_slice {α : Type} (all_nodes : List α) (P i : Nat) : List α :=
  let nodes_per_executor := max 1 (all_nodes.length / P)
  let start_idx := i * nodes_per_executor
  let end_idx := if i < P - 1 then start_idx + nodes_per_executor else all_nodes.length
  (all_nodes.drop start_idx).take (end_idx - start_idx)

/-- All `P` slices, in worker order `0, 1, …, P-1`. -/
def partition_slices {α : Type} (all_nodes : List α) (P : Nat) : List (List α) :=
  (List.range P).map (partition_slice all_nodes P)

/-! ## Worker (`ParallelWorker`) -/

/-- Modelled from the spec: `Node.absorb_exec_result`
(`aide/journal.py` is not among the embedded sources) absorbs the raw
execution artifact into the node. -/
def absorb_exec_result (node : Node) (result : ExecResult) : Node :=
  { node with exec_result := some result }

/-- Modelled from the spec: `Agent.parse_exec_result` (`aide/agent.py` is
not among the embedded sources) invokes the metric collaborator
`classify(node, artifact) → (is_buggy, metric|none)` — which may raise —
and writes the outcome into the node write-once fields. -/
def parse_exec_result (classify : Node → ExecResult → Except Err (Bool × Option Int))
    (node : Node) (result : ExecResult) : Except Err Node :=
  match classify node result with
  | .error e => .error e
  | .ok (b, m) => .ok { node with is_buggy := b, metric := m }

/-- Embedding of `ParallelWorker.execute_and_evaluate_node` (lines 43-58): run the
node code in the worker interpreter, absorb the artifacts, derive the
metrics; any exception raised inside is caught, logged with the node
id, and re-raised.  The second component is the list of error-log entries
emitted by the call, as `(node id, error)` pairs. -/
def execute_and_evaluate_node (run : String → Except Err ExecResult)
    (classify : Node → ExecResult → Except Err (Bool × Option Int))
    (node : Node) : Except Err Node × List (Nat × Err) :=
  match run node.code with
  | .error e => (.error e, [(node.id, e)])
  | .ok result =>
    match parse_exec_result classify (absorb_exec_result node result) result with
    | .error e => (.error e, [(node.id, e)])
    | .ok node2 => (.ok node2, [])

/-- The external collaborators a step consumes, mirroring the calls the
Python code makes out of `ParallelAgent.step` / `ParallelWorker`.
`draft w`/`debug w`/`improve w` stand for the proposal engine of worker
`w` on call `j` of the phase; `search_policy w` is the autonomous parent
pick of worker `w`; `run w` is the interpreter of worker `w`; `save` is
`save_run`; `worker_preview` is what `workers[0].get_data_preview()`
returns. -/
structure StepDeps where
  draft : Nat → Nat → Node
  debug : Nat → Node → Nat → Node
  improve : Nat → Node → Nat → Node
  search_policy : Nat → Option Node
  run : Nat → String → Except Err ExecResult
  classify : Node → ExecResult → Except Err (Bool × Option Int)
  save : Journal → Except Err Unit
  worker_preview : Option String

/-- Embedding of `ParallelWorker.generate_nodes` (lines 28-41): loop `num_nodes`
times; parent `none` → draft, buggy parent → debug, otherwise improve. -/
def generate_nodes (deps : StepDeps) (w : Nat) (parent_node : Option Node)
    (num_nodes : Nat) : List Node :=
  (List.range num_nodes).map (fun j =>
    match parent_node with
    | none => deps.draft w j
    | some p => if p.is_buggy then deps.debug w p j else deps.improve w p j)

/-- Embedding of `ParallelWorker.search_and_generate` (lines 68-72). -/
def search_and_generate (deps : StepDeps) (w : Nat) (num_nodes : Nat) : List Node :=
  generate_nodes deps w (deps.search_policy w) num_nodes

/-! ## Scheduler (`ParallelAgent`) -/

/-- The scheduler mutable state.  `has_data_preview` models the Python
`hasattr` check on the data-preview attribute; `fetch_count` counts the worker
data-preview fetches actually performed (the `ray.get` on line 195);
`save_fail_log` records the persistence failures logged on line 184. -/
structure PAState where
  journal : Journal
  num_workers : Nat
  nodes_per_worker : Nat
  has_data_preview : Bool
  data_preview : Option String
  fetch_count : Nat
  save_fail_log : List Err
deriving Repr

/-- Embedding of `ParallelAgent.__init__` (lines 76-105): the data-preview attribute
is always assigned — to the generated preview when
`cfg.agent.data_preview` is set, and to `None` otherwise (either way the
attribute exists afterwards). -/
def parallel_agent_init (cfg_data_preview : Bool) (generated_preview : String)
    (num_workers nodes_per_worker : Nat) (journal : Journal) : PAState :=
  { journal := journal
    num_workers := num_workers
    nodes_per_worker := nodes_per_worker
    has_data_preview := true
    data_preview := if cfg_data_preview then some generated_preview else none
    fetch_count := 0
    save_fail_log := [] }

/-- Embedding of `ParallelAgent.update_data_preview` (lines 192-195): fetch from the
first worker only when the attribute is missing. -/
def update_data_preview (worker_preview : Option String) (s : PAState) : PAState :=
  if s.has_data_preview then s
  else { s with data_preview := worker_preview
                has_data_preview := true
                fetch_count := s.fetch_count + 1 }

/-- Lines 112-114 of `step`: refresh the preview when the journal holds
no nodes. -/
def preview_phase (deps : StepDeps) (s : PAState) : PAState :=
  if s.journal.nodes.isEmpty then update_data_preview deps.worker_preview s else s

/-- Lines 117-124: each worker `search_and_generate`, in pool order. -/
def gen_phase (deps : StepDeps) (num_workers nodes_per_worker : Nat) : List (List Node) :=
  (List.range num_workers).map (fun w => search_and_generate deps w nodes_per_worker)

/-- Lines 129-132: flatten the per-worker responses into the pending
sequence. -/
def step_all_nodes (deps : StepDeps) (num_workers nodes_per_worker : Nat) : List Node :=
  (gen_phase deps num_workers nodes_per_worker).flatten

/-- Lines 135-142 applied inside `step`. -/
def step_slices (deps : StepDeps) (num_workers nodes_per_worker : Nat) : List (List Node) :=
  partition_slices (step_all_nodes deps num_workers nodes_per_worker) num_workers

/-- Lines 139-146: dispatch slice `i` to worker `w₀ + i`, appending one
evaluation future per node, slice by slice. -/
def exec_results (deps : StepDeps) (w : Nat) : List (List Node) → List (Except Err Node)
  | [] => []
  | slice :: rest =>
    slice.map (fun n => (execute_and_evaluate_node (deps.run w) deps.classify n).1)
      ++ exec_results deps (w + 1) rest

/-- Embedding of `ray.get` over the list of futures (line 150): all results, or the
first raised exception. -/
def collect {α : Type} : List (Except Err α) → Except Err (List α)
  | [] => .ok []
  | r :: rs =>
    match r with
    | .error e => .error e
    | .ok a =>
      match collect rs with
      | .error e => .error e
      | .ok as_ => .ok (a :: as_)

/-- Lines 158-161: for each evaluated node in result order, append it to
the draft list when it has no parent, and always append it to the main
collection.  `Journal.append` itself is modelled from the spec (see
`Journal`). -/
def aggregate (j : Journal) : List Node → Journal
  | [] => j
  | n :: ns =>
    let j1 := if n.parent.isNone then { j with draft_nodes := j.draft_nodes ++ [n] } else j
    aggregate { j1 with nodes := j1.nodes ++ [n] } ns

/-- Embedding of `ParallelAgent.step` (lines 107-184): optional preview refresh;
propose barrier; flatten; partition; evaluate barrier; aggregate;
best-effort save (lines 179-184: a save failure is logged and not
re-raised).  Returns the new state and the exception `step` raises, if
any.  On an evaluation failure the journal is untouched. -/
def step (deps : StepDeps) (s : PAState) : PAState × Option Err :=
  let s1 := preview_phase deps s
  match collect (exec_results deps 0 (step_slices deps s1.num_workers s1.nodes_per_worker)) with
  | .error e => (s1, some e)
  | .ok evaluated =>
    let s2 := { s1 with journal := aggregate s1.journal evaluated }
    match deps.save s2.journal with
    | .error e => ({ s2 with save_fail_log := s2.save_fail_log ++ [e] }, none)
    | .ok _ => (s2, none)

/-! ## Pool lifecycle (`ParallelAgent.cleanup`, lines 186-190) -/

/-- The pool teardown-relevant state: one open/closed flag per worker
interpreter session, plus whether the parallel substrate is up. -/
structure PoolState where
  sessions : List Bool
  substrate_up : Bool
deriving DecidableEq, Repr

/-- Modelled from the spec: `Interpreter.cleanup_session`
(`aide/interpreter.py` is not among the embedded sources) — the worker
explicit sandbox-session teardown; per §4.1/§4.3 it closes the session
and is safe to invoke repeatedly, never failing. -/
def cleanup_session (_session : Bool) : Bool := false

/-- Modelled from the spec: `ray.shutdown()` — releasing the
parallel-execution substrate, an external collaborator; per §4.3 release
is idempotent and safe after prior failures. -/
def ray_shutdown (s : PoolState) : PoolState :=
  { s with substrate_up := false }

/-- Embedding of `ParallelAgent.cleanup` (lines 186-190): tear down every worker
interpreter session in pool order, then release the substrate. -/
def cleanup (s : PoolState) : Except Err PoolState :=
  .ok (ray_shutdown { s with sessions := s.sessions.map cleanup_session })

/-! ## Concrete instances used by counterexamples and witnesses -/

/-- A distinguishable concrete node. -/
def demoNode (i : Nat) : Node :=
  { id := i, code := "print(1)", parent := none, is_buggy := false,
    metric := none, exec_result := none }

/-- A concrete child node pointing at parent id `p`. -/
def demoChild (i p : Nat) : Node :=
  { demoNode i with parent := some p }

/-- A pending sequence of `n` concrete nodes. -/
def demoNodes (n : Nat) : List Node := (List.range n).map demoNode

/-- Collaborators for which every call succeeds. -/
def demoDeps : StepDeps :=
  { draft := fun w j => demoNode (w * 100 + j)
    debug := fun w p j => demoChild (w * 100 + j + 50) p.id
    improve := fun w p j => demoChild (w * 100 + j + 70) p.id
    search_policy := fun _ => none
    run := fun _ _ => .ok { success := true, output := "ok", time := 1 }
    classify := fun _ _ => .ok (false, some 1)
    save := fun _ => .ok ()
    worker_preview := some ("preview-from-worker") }

/-- Collaborators whose sandbox always raises. -/
def demoDepsBadRun : StepDeps :=
  { demoDeps with run := fun _ _ => .error ("sandbox crashed") }

/-- Collaborators whose persistence always fails. -/
def demoDepsBadSave : StepDeps :=
  { demoDeps with save := fun _ => .error ("disk full") }

/-- A fresh scheduler state with an empty journal, 2 workers, 1 node per
worker, as produced by the constructor with `cfg.agent.data_preview`
enabled. -/
def demoState : PAState :=
  parallel_agent_init true ("generated-preview") 2 1 { nodes := [], draft_nodes := [] }

/-- Concrete evaluated nodes as produced by `demoDeps` on `demoState`. -/
def demoEvaluated : List Node :=
  [{ id := 0, code := ("print(1)"), parent := none, is_buggy := false,
     metric := some 1,
     exec_result := some { success := true, output := ("ok"), time := 1 } },
   { id := 100, code := ("print(1)"), parent := none, is_buggy := false,
     metric := some 1,
     exec_result := some { success := true, output := ("ok"), time := 1 } }]

/-- A pool with three live workers. -/
def demoPool : PoolState := { sessions := [true, true, true], substrate_up := true }

/-- The same pool after teardown. -/
def demoPoolDown : PoolState :=
  { sessions := [false, false, false], substrate_up := false }

/-! ## Helper lemmas -/

theorem flatten_take {α : Type} (l : List α) (q : Nat) :
    ∀ k, ((List.range k).map (fun i => (l.drop (i * q)).take q)).flatten = l.take (k * q) := by
  intro k
  induction k with
  | zero => simp
  | succ n ih =>
    rw [List.range_succ, List.map_append, List.flatten_append, ih]
    simp only [List.map_cons, List.map_nil, List.flatten_cons, List.flatten_nil,
      List.append_nil]
    rw [Nat.succ_mul, List.take_add]

theorem partition_slices_flatten {α : Type} (l : List α) (P : Nat) (hP : 1 ≤ P) :
    (partition_slices l P).flatten = l := by
  obtain ⟨Q, rfl⟩ : ∃ Q, P = Q + 1 := ⟨P - 1, by omega⟩
  unfold partition_slices
  rw [List.range_succ, List.map_append, List.flatten_append]
  have hmid : (List.range Q).map (partition_slice l (Q + 1)) =
      (List.range Q).map
        (fun i => (l.drop (i * max 1 (l.length / (Q + 1)))).take (max 1 (l.length / (Q + 1)))) := by
    apply List.map_congr_left
    intro i hi
    have hiQ : i < Q + 1 - 1 := by simpa using List.mem_range.mp hi
    simp only [partition_slice, if_pos hiQ, Nat.add_sub_cancel_left]
  rw [hmid, flatten_take]
  have hlast : partition_slice l (Q + 1) Q = l.drop (Q * max 1 (l.length / (Q + 1))) := by
    have hQQ : ¬ (Q < Q + 1 - 1) := by omega
    simp only [partition_slice, if_neg hQQ]
    rw [← List.length_drop, List.take_length]
  simp only [List.map_cons, List.map_nil, List.flatten_cons, List.flatten_nil,
    List.append_nil, hlast, List.take_append_drop]

theorem partition_slices_length {α : Type} (l : List α) (P : Nat) :
    (partition_slices l P).length = P := by
  simp [partition_slices]

theorem partition_slice_mid {α : Type} (l : List α) (P i : Nat)
    (hi : i < P - 1) (hN : P ≤ l.length) :
    (partition_slice l P i).length = l.length / P := by
  have hP : 0 < P := by omega
  have hq1 : 1 ≤ l.length / P := (Nat.one_le_div_iff hP).mpr hN
  have hq : max 1 (l.length / P) = l.length / P := Nat.max_eq_right hq1
  have hle : i * (l.length / P) + l.length / P ≤ l.length := by
    calc i * (l.length / P) + l.length / P = (i + 1) * (l.length / P) := by
          rw [Nat.succ_mul]
    _ ≤ P * (l.length / P) := Nat.mul_le_mul_right _ (by omega)
    _ ≤ l.length := by rw [Nat.mul_comm]; exact Nat.div_mul_le_self ..
  simp only [partition_slice, hq, if_pos hi, Nat.add_sub_cancel_left,
    List.length_take, List.length_drop]
  exact Nat.min_eq_left (Nat.le_sub_of_add_le (by rw [Nat.add_comm]; exact hle))

theorem partition_slice_last {α : Type} (l : List α) (P : Nat)
    (hP : 1 ≤ P) (hN : P ≤ l.length) :
    (partition_slice l P (P - 1)).length = l.length / P + l.length % P := by
  have hq1 : 1 ≤ l.length / P := (Nat.one_le_div_iff (by omega)).mpr hN
  have hq : max 1 (l.length / P) = l.length / P := Nat.max_eq_right hq1
  have hmod : P * (l.length / P) + l.length % P = l.length := Nat.div_add_mod ..
  have hPm : (P - 1) * (l.length / P) = P * (l.length / P) - l.length / P := by
    rw [Nat.sub_mul, Nat.one_mul]
  have hdle : l.length / P ≤ P * (l.length / P) := Nat.le_mul_of_pos_left _ (by omega)
  have hno : ¬ (P - 1 < P - 1) := by omega
  simp only [partition_slice, hq, if_neg hno, List.length_take, List.length_drop,
    Nat.min_self, hPm]
  generalize P * (l.length / P) = X at hmod hdle
  omega

theorem collect_ok_length {α : Type} :
    ∀ (rs : List (Except Err α)) (out : List α), collect rs = .ok out → out.length = rs.length := by
  intro rs
  induction rs with
  | nil =>
    intro out h
    simp only [collect] at h
    cases h
    rfl
  | cons r rs ih =>
    intro out h
    cases r with
    | error e => simp [collect] at h
    | ok a =>
      simp only [collect] at h
      cases hc : collect rs with
      | error e => rw [hc] at h; cases h
      | ok bs =>
        rw [hc] at h
        cases h
        simp [ih bs hc]

theorem collect_error_of_mem {α : Type} :
    ∀ (rs : List (Except Err α)) (r : Except Err α), r ∈ rs → isErr r = true →
      ∃ e, collect rs = .error e := by
  intro rs
  induction rs with
  | nil => intro r hr _; cases hr
  | cons r0 rs ih =>
    intro r hr herr
    cases r0 with
    | error e => exact ⟨e, rfl⟩
    | ok a =>
      rcases List.mem_cons.mp hr with h | h
      · subst h; simp [isErr] at herr
      · obtain ⟨e, he⟩ := ih r h herr
        exact ⟨e, by simp [collect, he]⟩

theorem exec_results_length (deps : StepDeps) :
    ∀ (w : Nat) (slices : List (List Node)),
      (exec_results deps w slices).length = slices.flatten.length := by
  intro w slices
  induction slices generalizing w with
  | nil => rfl
  | cons s rest ih => simp [exec_results, ih]

theorem aggregate_eq (ns : List Node) :
    ∀ j : Journal,
      aggregate j ns =
        { nodes := j.nodes ++ ns,
          draft_nodes := j.draft_nodes ++ ns.filter (fun n => n.parent.isNone) } := by
  induction ns with
  | nil => intro j; simp [aggregate]
  | cons n ns ih =>
    intro j
    cases hp : n.parent.isNone with
    | true => simp [aggregate, hp, ih, List.filter_cons]
    | false => simp [aggregate, hp, ih, List.filter_cons]

theorem step_all_nodes_length (deps : StepDeps) (nw k : Nat) :
    (step_all_nodes deps nw k).length = nw * k := by
  unfold step_all_nodes gen_phase
  rw [List.length_flatten, List.map_map]
  have h : ∀ w ∈ List.range nw,
      (List.length ∘ fun w => search_and_generate deps w k) w = (fun _ => k) w := by
    intro w _
    simp [search_and_generate, generate_nodes]
  rw [List.map_congr_left h]
  simp [mul_comm]

theorem preview_phase_journal (deps : StepDeps) (s : PAState) :
    (preview_phase deps s).journal = s.journal := by
  unfold preview_phase update_data_preview
  split
  · split <;> rfl
  · rfl

theorem preview_phase_num_workers (deps : StepDeps) (s : PAState) :
    (preview_phase deps s).num_workers = s.num_workers := by
  unfold preview_phase update_data_preview
  split
  · split <;> rfl
  · rfl

theorem preview_phase_nodes_per_worker (deps : StepDeps) (s : PAState) :
    (preview_phase deps s).nodes_per_worker = s.nodes_per_worker := by
  unfold preview_phase update_data_preview
  split
  · split <;> rfl
  · rfl

theorem preview_phase_save_fail_log (deps : StepDeps) (s : PAState) :
    (preview_phase deps s).save_fail_log = s.save_fail_log := by
  unfold preview_phase update_data_preview
  split
  · split <;> rfl
  · rfl

theorem preview_phase_of_has (deps : StepDeps) (s : PAState)
    (hs : s.has_data_preview = true) : preview_phase deps s = s := by
  unfold preview_phase update_data_preview
  split <;> simp [hs]

theorem step_err_spec (deps : StepDeps) (s : PAState) (e : Err)
    (hcol : collect (exec_results deps 0 (step_slices deps s.num_workers s.nodes_per_worker)) =
      .error e) :
    step deps s = (preview_phase deps s, some e) := by
  simp only [step]
  rw [preview_phase_num_workers, preview_phase_nodes_per_worker, hcol]

theorem step_ok_spec (deps : StepDeps) (s : PAState) (evaluated : List Node)
    (hcol : collect (exec_results deps 0 (step_slices deps s.num_workers s.nodes_per_worker)) =
      .ok evaluated) :
    (step deps s).1.journal = aggregate s.journal evaluated ∧
    (step deps s).2 = none := by
  simp only [step]
  rw [preview_phase_num_workers, preview_phase_nodes_per_worker, hcol]
  simp only [preview_phase_journal]
  cases hsave : deps.save (aggregate s.journal evaluated) with
  | error e0 => exact ⟨rfl, rfl⟩
  | ok u => exact ⟨rfl, rfl⟩

theorem step_ok_save_fail (deps : StepDeps) (s : PAState) (evaluated : List Node) (e : Err)
    (hcol : collect (exec_results deps 0 (step_slices deps s.num_workers s.nodes_per_worker)) =
      .ok evaluated)
    (hsave : deps.save (aggregate s.journal evaluated) = .error e) :
    (step deps s).1.save_fail_log = s.save_fail_log ++ [e] := by
  simp only [step]
  rw [preview_phase_num_workers, preview_phase_nodes_per_worker, hcol]
  simp only [preview_phase_journal]
  rw [hsave]
  simp only [preview_phase_save_fail_log]

theorem step_ok_fields (deps : StepDeps) (s : PAState) (evaluated : List Node)
    (hcol : collect (exec_results deps 0 (step_slices deps s.num_workers s.nodes_per_worker)) =
      .ok evaluated) :
    (step deps s).1.fetch_count = (preview_phase deps s).fetch_count ∧
    (step deps s).1.data_preview = (preview_phase deps s).data_preview ∧
    (step deps s).1.has_data_preview = (preview_phase deps s).has_data_preview := by
  simp only [step]
  rw [preview_phase_num_workers, preview_phase_nodes_per_worker, hcol]
  simp only [preview_phase_journal]
  cases hsave : deps.save (aggregate s.journal evaluated) with
  | error e0 => exact ⟨rfl, rfl, rfl⟩
  | ok u => exact ⟨rfl, rfl, rfl⟩

/-! ## Claims -/

/-- C1 (counterexample): with a pending sequence of 1 node and a pool of
2 workers, the code produces slice sizes [1, 0]; the non-last slice
(worker 0) has size 1, not floor(1 / 2) = 0 as the claim demands. -/
theorem C1_counterexample :
    (partition_slices (demoNodes 1) 2).map List.length = [1, 0] ∧
    ¬ ((partition_slice (demoNodes 1) 2 0).length = (demoNodes 1).length / 2) := by
  constructor
  · rfl
  · decide

/-- C1 (amended): for every pending sequence of N nodes and pool of P
workers with 1 ≤ P ≤ N, the partition step produces exactly P contiguous
slices, every slice except the last has size floor(N / P), and the last
slice absorbs the remainder (size floor(N / P) + N mod P). -/
theorem C1_partition_sizes {α : Type} (l : List α) (P : Nat)
    (hP : 1 ≤ P) (hN : P ≤ l.length) :
    (partition_slices l P).length = P ∧
    (∀ i, i < P - 1 → (partition_slice l P i).length = l.length / P) ∧
    (partition_slice l P (P - 1)).length = l.length / P + l.length % P :=
  ⟨partition_slices_length l P,
   fun i hi => partition_slice_mid l P i hi hN,
   partition_slice_last l P hP hN⟩

/-- C1 (witness): pool size 3, 10 pending nodes → 3 slices of sizes
[3, 3, 4] assigned to workers 0, 1, 2. -/
theorem C1_witness :
    (partition_slices (demoNodes 10) 3).length = 3 ∧
    (partition_slice (demoNodes 10) 3 0).length = 3 ∧
    (partition_slice (demoNodes 10) 3 1).length = 3 ∧
    (partition_slice (demoNodes 10) 3 2).length = 4 :=
  ⟨(C1_partition_sizes (demoNodes 10) 3 (by decide) (by decide)).1,
   (C1_partition_sizes (demoNodes 10) 3 (by decide) (by decide)).2.1 0 (by decide),
   (C1_partition_sizes (demoNodes 10) 3 (by decide) (by decide)).2.1 1 (by decide),
   (C1_partition_sizes (demoNodes 10) 3 (by decide) (by decide)).2.2⟩

/-- C2: for every pending sequence and every pool of P ≥ 1 workers, the
concatenation of the P partition slices in partition order reproduces
the pending sequence exactly — no duplication, no loss. -/
theorem C2_partition_concat {α : Type} (l : List α) (P : Nat) (hP : 1 ≤ P) :
    (partition_slices l P).flatten = l :=
  partition_slices_flatten l P hP

/-- C2 (witness): the 10-node pending sequence with 3 workers. -/
theorem C2_witness : (partition_slices (demoNodes 10) 3).flatten = demoNodes 10 :=
  C2_partition_concat (demoNodes 10) 3 (by decide)

/-- C3 (counterexample): 8 pending nodes across 3 workers produce slice
sizes [2, 2, 4], two of which differ by 2 — the claim that all slices
differ in size by at most 1 is false. -/
theorem C3_counterexample :
    (partition_slices (demoNodes 8) 3).map List.length = [2, 2, 4] ∧
    ¬ (∀ a ∈ (partition_slices (demoNodes 8) 3).map List.length,
        ∀ b ∈ (partition_slices (demoNodes 8) 3).map List.length, a - b ≤ 1) := by
  constructor
  · rfl
  · decide

/-- C3 (amended): for N nodes across P workers with 1 ≤ P ≤ N, the P
partition slice sizes differ from one another by at most N mod P (the
first P−1 slices are equal and the last absorbs the whole remainder), so
they differ by at most 1 exactly when N mod P ≤ 1 — in particular always
when the pending sequence is the P·K nodes of a protocol step. -/
theorem C3_partition_size_spread {α : Type} (l : List α) (P : Nat)
    (hP : 1 ≤ P) (hN : P ≤ l.length) :
    ∀ a ∈ (partition_slices l P).map List.length,
      ∀ b ∈ (partition_slices l P).map List.length, a - b ≤ l.length % P := by
  have key : ∀ c ∈ (partition_slices l P).map List.length,
      c = l.length / P ∨ c = l.length / P + l.length % P := by
    intro c hc
    rw [List.mem_map] at hc
    obtain ⟨slice, hs, rfl⟩ := hc
    rw [partition_slices, List.mem_map] at hs
    obtain ⟨i, hi, rfl⟩ := hs
    rw [List.mem_range] at hi
    by_cases hmid : i < P - 1
    · exact Or.inl (partition_slice_mid l P i hmid hN)
    · have hieq : i = P - 1 := by omega
      rw [hieq]
      exact Or.inr (partition_slice_last l P hP hN)
  intro a ha b hb
  rcases key a ha with h1 | h1 <;> rcases key b hb with h2 | h2 <;>
    rw [h1, h2] <;>
    simp [Nat.sub_self, Nat.add_sub_cancel_left, Nat.sub_eq_zero_of_le, Nat.le_add_right]

/-- C3 (witness): 10 nodes across 3 workers; slice sizes 4 and 3 are
both realized and differ by at most 10 mod 3 = 1. -/
theorem C3_witness : (4 : Nat) - 3 ≤ (demoNodes 10).length % 3 :=
  C3_partition_size_spread (demoNodes 10) 3 (by decide) (by decide)
    4 (by decide) 3 (by decide)

/-- C4: if any evaluation dispatched in a step raises, the exception
propagates out of `step` and the Journal is left exactly as it was —
aggregation runs only in the branch where every evaluation result
resolved successfully, so the affected node (and every other node of the
step) is never appended. -/
theorem C4_eval_failure_aborts (deps : StepDeps) (s : PAState)
    (h : ∃ r ∈ exec_results deps 0 (step_slices deps s.num_workers s.nodes_per_worker),
      isErr r = true) :
    ((step deps s).2).isSome = true ∧ (step deps s).1.journal = s.journal := by
  obtain ⟨r, hr, herr⟩ := h
  obtain ⟨e, hcol⟩ := collect_error_of_mem _ r hr herr
  rw [step_err_spec deps s e hcol]
  exact ⟨rfl, preview_phase_journal deps s⟩

/-- C4 (witness): with a sandbox that always crashes, the demo step
surfaces the exception and leaves the empty journal untouched. -/
theorem C4_witness :
    (∃ r ∈ exec_results demoDepsBadRun 0
        (step_slices demoDepsBadRun demoState.num_workers demoState.nodes_per_worker),
      isErr r = true) ∧
    ((step demoDepsBadRun demoState).2).isSome = true ∧
    (step demoDepsBadRun demoState).1.journal = demoState.journal :=
  ⟨by decide, C4_eval_failure_aborts demoDepsBadRun demoState (by decide)⟩

/-- C5: when the sandbox run or the metric derivation for a node fails,
the worker boundary returns exactly that exception (re-raised, not
swallowed) together with an error-log entry carrying the node identity,
and the call never yields an evaluated node — in particular the failure
is not converted into an `is_buggy` result. -/
theorem C5_worker_reraise (run : String → Except Err ExecResult)
    (classify : Node → ExecResult → Except Err (Bool × Option Int))
    (node : Node) (e : Err)
    (h : run node.code = .error e ∨
      ∃ r, run node.code = .ok r ∧
        parse_exec_result classify (absorb_exec_result node r) r = .error e) :
    execute_and_evaluate_node run classify node = (.error e, [(node.id, e)]) ∧
    ∀ n0, (execute_and_evaluate_node run classify node).1 ≠ .ok n0 := by
  have heq : execute_and_evaluate_node run classify node = (.error e, [(node.id, e)]) := by
    rcases h with h | ⟨r, h1, h2⟩
    · unfold execute_and_evaluate_node
      rw [h]
    · unfold execute_and_evaluate_node
      rw [h1]
      simp only [h2]
  refine ⟨heq, fun n0 hn => ?_⟩
  rw [heq] at hn
  cases hn

/-- C5 (witness): a concrete sandbox crash on node 0 is logged with id 0
and re-raised unchanged. -/
theorem C5_witness :
    execute_and_evaluate_node (fun _ => .error ("boom")) (demoDeps.classify) (demoNode 0) =
      (.error ("boom"), [(0, ("boom"))]) ∧
    ∀ n0, (execute_and_evaluate_node (fun _ => .error ("boom")) (demoDeps.classify)
      (demoNode 0)).1 ≠ .ok n0 :=
  C5_worker_reraise _ _ _ _ (Or.inl rfl)

/-- C6: when every evaluation of a step resolves but the checkpoint save
fails, the failure is caught and logged at the scheduler boundary:
`step` completes without raising, the aggregated journal stands, and the
failure is only recorded in the log. -/
theorem C6_save_failure_nonfatal (deps : StepDeps) (s : PAState)
    (evaluated : List Node) (e : Err)
    (hcol : collect (exec_results deps 0 (step_slices deps s.num_workers s.nodes_per_worker)) =
      .ok evaluated)
    (hsave : deps.save (aggregate s.journal evaluated) = .error e) :
    (step deps s).2 = none ∧
    (step deps s).1.journal = aggregate s.journal evaluated ∧
    (step deps s).1.save_fail_log = s.save_fail_log ++ [e] :=
  ⟨(step_ok_spec deps s evaluated hcol).2,
   (step_ok_spec deps s evaluated hcol).1,
   step_ok_save_fail deps s evaluated e hcol hsave⟩

/-- C6 (witness): the demo step with a failing save completes, keeps the
two aggregated nodes, and logs the failure. -/
theorem C6_witness :
    (step demoDepsBadSave demoState).2 = none ∧
    (step demoDepsBadSave demoState).1.journal =
      aggregate demoState.journal demoEvaluated ∧
    (step demoDepsBadSave demoState).1.save_fail_log =
      demoState.save_fail_log ++ [("disk full")] :=
  C6_save_failure_nonfatal demoDepsBadSave demoState demoEvaluated ("disk full")
    rfl rfl

/-- C7: aggregation appends, in result order, every evaluated node to
the main Journal collection, and exactly the parent-less ones also to
the draft list; a node with a non-none parent reaches only the main
collection. -/
theorem C7_aggregate_appends (j : Journal) (ns : List Node) :
    (aggregate j ns).nodes = j.nodes ++ ns ∧
    (aggregate j ns).draft_nodes = j.draft_nodes ++ ns.filter (fun n => n.parent.isNone) := by
  rw [aggregate_eq]
  exact ⟨rfl, rfl⟩

/-- C8 (counterexample): on a first step with an empty journal the
worker data-preview fetch is not performed — the fetch count stays 0,
refuting the claim that the fetch actually happens on that step. -/
theorem C8_counterexample :
    demoState.journal.nodes.isEmpty = true ∧
    (step demoDeps demoState).1.fetch_count = 0 ∧
    ¬ ((step demoDeps demoState).1.fetch_count = 1) := by
  refine ⟨rfl, ?_, ?_⟩ <;> decide

/-- C8 (amended): when `step` begins with an empty Journal it invokes
`update_data_preview`, but because of the constructor this always finds the
data-preview attribute already set, it never performs the worker fetch on
any step; the constructor-computed preview stays cached unchanged for
the scheduler lifetime. -/
theorem C8_preview_never_fetched (b : Bool) (p : String) (nw k : Nat) (j : Journal)
    (deps : StepDeps) (s : PAState) (hs : s.has_data_preview = true) :
    (parallel_agent_init b p nw k j).has_data_preview = true ∧
    (step deps s).1.fetch_count = s.fetch_count ∧
    (step deps s).1.data_preview = s.data_preview ∧
    (step deps s).1.has_data_preview = true := by
  refine ⟨rfl, ?_⟩
  have hp := preview_phase_of_has deps s hs
  cases hcol : collect (exec_results deps 0 (step_slices deps s.num_workers s.nodes_per_worker)) with
  | error e =>
    rw [step_err_spec deps s e hcol, hp]
    exact ⟨rfl, rfl, hs⟩
  | ok evaluated =>
    obtain ⟨f1, f2, f3⟩ := step_ok_fields deps s evaluated hcol
    rw [hp] at f1 f2 f3
    exact ⟨f1, f2, f3.trans hs⟩

/-- C8 (witness): the amended statement at the demo scheduler state. -/
theorem C8_witness :
    (parallel_agent_init true ("p") 2 1 { nodes := [], draft_nodes := [] }).has_data_preview
      = true ∧
    (step demoDeps demoState).1.fetch_count = demoState.fetch_count ∧
    (step demoDeps demoState).1.data_preview = demoState.data_preview ∧
    (step demoDeps demoState).1.has_data_preview = true :=
  C8_preview_never_fetched true ("p") 2 1 { nodes := [], draft_nodes := [] }
    demoDeps demoState rfl

/-- C9: a second `cleanup` after a successful one returns the same
already-torn-down pool state and raises no error — pool teardown is
idempotent. -/
theorem C9_cleanup_idempotent (s s1 : PoolState) (h : cleanup s = .ok s1) :
    cleanup s1 = .ok s1 := by
  simp only [cleanup, ray_shutdown] at h
  injection h with h1
  subst h1
  simp only [cleanup, ray_shutdown, List.map_map]
  rfl

/-- C9 (witness): tearing the three-worker demo pool down twice. -/
theorem C9_witness : cleanup demoPoolDown = .ok demoPoolDown :=
  C9_cleanup_idempotent demoPool demoPoolDown rfl

/-- C10: a step over P ≥ 1 workers that completes without raising grows
the Journal by exactly P × K nodes (K = nodes per worker): each worker
generates K nodes, every generated node is dispatched and evaluated, and
every evaluated node is appended during aggregation. -/
theorem C10_step_growth (deps : StepDeps) (s : PAState)
    (hW : 1 ≤ s.num_workers) (hok : (step deps s).2 = none) :
    (step deps s).1.journal.nodes.length =
      s.journal.nodes.length + s.num_workers * s.nodes_per_worker := by
  cases hcol : collect (exec_results deps 0 (step_slices deps s.num_workers s.nodes_per_worker)) with
  | error e =>
    rw [step_err_spec deps s e hcol] at hok
    cases hok
  | ok evaluated =>
    obtain ⟨hj, -⟩ := step_ok_spec deps s evaluated hcol
    rw [hj, aggregate_eq]
    simp only [List.length_append]
    have h1 : evaluated.length =
        (exec_results deps 0 (step_slices deps s.num_workers s.nodes_per_worker)).length :=
      collect_ok_length _ _ hcol
    have h2 : (exec_results deps 0 (step_slices deps s.num_workers s.nodes_per_worker)).length =
        (step_slices deps s.num_workers s.nodes_per_worker).flatten.length :=
      exec_results_length deps 0 _
    have h3 : (step_slices deps s.num_workers s.nodes_per_worker).flatten =
        step_all_nodes deps s.num_workers s.nodes_per_worker :=
      partition_slices_flatten _ _ hW
    have h4 : (step_all_nodes deps s.num_workers s.nodes_per_worker).length =
        s.num_workers * s.nodes_per_worker :=
      step_all_nodes_length deps s.num_workers s.nodes_per_worker
    rw [h1, h2, h3, h4]

/-- C10 (witness): the demo step (2 workers × 1 node) grows the journal
from 0 to 2 nodes. -/
theorem C10_witness :
    (step demoDeps demoState).1.journal.nodes.length =
      demoState.journal.nodes.length + demoState.num_workers * demoState.nodes_per_worker :=
  C10_step_growth demoDeps demoState (by decide) (by decide)
